import Mathlib

/-!
Shallow embedding of the barney.ci/go-store locking and atomic-store engine.

The Go sources embedded here are the current revisions of the repository:
`lock.go` (the `interruptibleLock` engine), the per-platform raw lock
primitives (`lock_unix.go` for Linux-like systems, `lock_darwin.go`,
`lock_windows.go`), and `store.go` (the inode-canary `Load`/`Store`/
`LoadAndStore` implementation).

Go errors are modelled by an inductive `Err` type; effects on the
file system are modelled by an association-list file system `FS`;
syscall outcomes and context polls that the kernel or the caller
decides are supplied through explicit environment records, so every
definition is an executable function of its inputs.
-/

set_option autoImplicit false

namespace store

/-- Go error values as they appear in the library: sentinels (`ErrRetry`,
`errWouldBlock`, `errLockInterrupted`, `context.Canceled`, `os.ErrNotExist`),
raw OS error numbers, opaque user/codec errors, and the two wrapping shapes
`os.SyscallError` and `os.PathError`. -/
inductive Err where
  | retry
  | wouldBlock
  | lockInterrupted
  | canceled
  | notExist
  | errno (n : Nat)
  | userErr (n : Nat)
  | syscallError (op : String) (e : Err)
  | pathError (op : String) (path : String) (e : Err)
deriving DecidableEq, Repr

/-- Observable effects emitted by the engine: raw kernel lock/unlock syscalls,
file opens/closes/removes/truncates/renames, codec invocations, and the user
callback of `LoadAndStore`. -/
inductive Ev where
  | rawLockCall
  | rawUnlockCall
  | openCall (path : String)
  | closeCall (path : String)
  | removeCall (path : String)
  | truncateCall (path : String)
  | renameCall (src : String) (dst : String)
  | decodeCall
  | encodeCall
  | callbackCall
deriving DecidableEq, Repr

/-- Lock state of an open file description (spec §3: unlocked, shared or
exclusive). -/
inductive LockState where
  | unlocked
  | shared
  | exclusive
deriving DecidableEq, Repr

/-- The `lockFlag` bits of lock.go: `lockExcl` and `lockBlock`. -/
structure LockFlags where
  excl : Bool
  block : Bool
deriving DecidableEq, Repr

/-- Outcome of one underlying kernel lock/unlock syscall attempt, as decided
by the kernel: success or failure with an OS error number. -/
inductive RawOutcome where
  | ok
  | fail (errno : Nat)
deriving DecidableEq, Repr

/-- Symbolic errno for an interrupted syscall. -/
def EINTR : Nat := 4

/-- Symbolic errno returned by a non-blocking flock that would block. -/
def EWOULDBLOCK : Nat := 11

/-- Symbolic Windows error code for a lock-range conflict. -/
def ERROR_LOCK_VIOLATION : Nat := 33

/-- Symbolic Windows error code set by CancelSynchronousIo. -/
def ERROR_OPERATION_ABORTED : Nat := 995

/-- `wrapSyscallError` from lock.go: wrap a non-nil error in an
`os.SyscallError` tagged with the operation name. -/
def wrapSyscallError (op : String) : Option Err → Option Err
  | none => none
  | some e => some (.syscallError op e)

/-- `wrapPathError` from lock.go: wrap a non-nil error in an `os.PathError`
tagged with the operation and path. -/
def wrapPathError (op : String) (path : String) : Option Err → Option Err
  | none => none
  | some e => some (.pathError op path e)

/-- The raw `lock` of lock_unix.go (Linux-like): maps a flock outcome to
nil, `errLockInterrupted` on EINTR, a SyscallError around `ErrWouldBlock`
on EWOULDBLOCK, and a SyscallError around the raw error otherwise.
The computed sysFlags do not influence this mapping. -/
def lockUnixRaw (_flags : LockFlags) (r : RawOutcome) : Option Err :=
  match r with
  | .ok => none
  | .fail n =>
    if n = EINTR then some .lockInterrupted
    else if n = EWOULDBLOCK then some (.syscallError "flock" .wouldBlock)
    else some (.syscallError "flock" (.errno n))

/-- The raw `lock` of lock_darwin.go: no EINTR arm; EWOULDBLOCK maps to a
SyscallError around `ErrWouldBlock`, every other failure to a SyscallError
around the raw error. It never produces `errLockInterrupted`. -/
def lockDarwinRaw (_flags : LockFlags) (r : RawOutcome) : Option Err :=
  match r with
  | .ok => none
  | .fail n =>
    if n = EWOULDBLOCK then some (.syscallError "flock" .wouldBlock)
    else some (.syscallError "flock" (.errno n))

/-- The raw `lock` of lock_windows.go: ERROR_OPERATION_ABORTED maps to
`errLockInterrupted`; ERROR_LOCK_VIOLATION maps to `ErrWouldBlock` only for
non-blocking calls; everything else surfaces as a SyscallError. -/
def lockWindowsRaw (flags : LockFlags) (r : RawOutcome) : Option Err :=
  match r with
  | .ok => none
  | .fail n =>
    if n = ERROR_OPERATION_ABORTED then some .lockInterrupted
    else if n = ERROR_LOCK_VIOLATION ∧ flags.block = false then
      some (.syscallError "LockFileEx" .wouldBlock)
    else some (.syscallError "LockFileEx" (.errno n))

/-- The raw `unlock` of lock_unix.go and lock_darwin.go:
`wrapSyscallError("flock", flock(fd, LOCK_UN))`. -/
def unlockUnixRaw (r : RawOutcome) : Option Err :=
  match r with
  | .ok => none
  | .fail n => some (.syscallError "flock" (.errno n))

/-- The raw `unlock` of lock_windows.go:
`wrapSyscallError("UnlockFileEx", UnlockFileEx(...))`. -/
def unlockWindowsRaw (r : RawOutcome) : Option Err :=
  match r with
  | .ok => none
  | .fail n => some (.syscallError "UnlockFileEx" (.errno n))

/-- A platform realization of the lock primitives: the
`systemHasInterruptibleLocks` constant, whether `preLock` unconditionally
unlocks, and the raw lock/unlock outcome mappings. -/
structure Platform where
  hasInterruptible : Bool
  preUnlocks : Bool
  rawLock : LockFlags → RawOutcome → Option Err
  rawUnlock : RawOutcome → Option Err

/-- The Linux-like Unix platform. Its raw mappings are those of the
lock_unix.go in the sources; `preLock` is a no-op there.
`hasInterruptible := true` is modelled from the spec: the
`systemHasInterruptibleLocks` constant for Linux is not among the source
files (only the darwin `false` and windows `true` values are), and spec
§4.1 sets `SUPPORTS_INTERRUPT = true` for Unix with real-time-style
signals. -/
def unixPlatform : Platform :=
  ⟨true, false, lockUnixRaw, unlockUnixRaw⟩

/-- The Darwin platform: `systemHasInterruptibleLocks = false`, no-op
`preLock`, darwin raw mappings (lock_darwin.go). -/
def darwinPlatform : Platform :=
  ⟨false, false, lockDarwinRaw, unlockUnixRaw⟩

/-- The Windows platform: `systemHasInterruptibleLocks = true`, `preLock`
issues an unconditional unlock, windows raw mappings (lock_windows.go). -/
def windowsPlatform : Platform :=
  ⟨true, true, lockWindowsRaw, unlockWindowsRaw⟩

/-- State transition of a successful raw lock: the handle now holds the
requested mode. -/
def applyLock (flags : LockFlags) : LockState :=
  if flags.excl then .exclusive else .shared

/-- One iteration of the engine's retry loop: the kernel outcome of the raw
lock call, and whether the context poll inside the `errLockInterrupted` arm
observes a cancelled context. -/
structure LoopStep where
  raw : RawOutcome
  ctxCanceledAfter : Bool
deriving Repr

/-- Environment of one `interruptibleLock` call: the entry context poll, the
context's error, the kernel outcomes of successive raw lock calls, and the
outcomes driving the non-interruptible fallback (which of raw completion or
cancellation wins the race, and whether both arrived simultaneously). -/
structure LockEnv where
  ctxCanceledAtEntry : Bool
  ctxErr : Err
  steps : List LoopStep
  directRaw : RawOutcome
  fallbackCtxWins : Bool
  fallbackRaced : Option RawOutcome
  fallbackRaw : RawOutcome
deriving Repr

/-- Replace every context poll by "not cancelled": models passing
`context.Background()` as TryLock/TryRLock do. -/
def bgEnv (env : LockEnv) : LockEnv :=
  { env with
    ctxCanceledAtEntry := false
    steps := env.steps.map fun s => { s with ctxCanceledAfter := false }
    fallbackCtxWins := false }

/-- Result of a lock-engine call: `result = none` means the call is still
blocked in the kernel beyond the modelled outcomes (it has not returned),
`result = some none` is a nil-error return, `result = some (some e)` an
error return. `state` is the handle's lock state at the time of return and
`trace` the emitted syscall events. -/
structure LockOut where
  result : Option (Option Err)
  state : LockState
  trace : List Ev
deriving DecidableEq, Repr

/-- The retry loop at the bottom of `interruptibleLock` (lock.go): call the
raw lock; return nil on success; on `errLockInterrupted` poll the context
and either return its error or retry; return any other error as is. -/
def lockRetryLoop (p : Platform) (flags : LockFlags) (ctxErr : Err) :
    List LoopStep → LockState → LockOut
  | [], st => ⟨none, st, []⟩
  | s :: rest, st =>
    match p.rawLock flags s.raw with
    | none => ⟨some none, applyLock flags, [.rawLockCall]⟩
    | some e =>
      if e = .lockInterrupted then
        if s.ctxCanceledAfter then ⟨some (some ctxErr), st, [.rawLockCall]⟩
        else
          let out := lockRetryLoop p flags ctxErr rest st
          ⟨out.result, out.state, .rawLockCall :: out.trace⟩
      else ⟨some (some e), st, [.rawLockCall]⟩

/-- `interruptibleLockFallback` (lock.go): on systems without interruptible
locks, a non-blocking call goes straight to the raw lock; a blocking call
races a goroutine issuing the raw lock against context cancellation, giving
precedence to a raw result that arrives at the same instant. When
cancellation wins outright the goroutine keeps blocking (the acquisition may
leak), so the handle's state at return time is unchanged. -/
def interruptibleLockFallback (p : Platform) (env : LockEnv) (flags : LockFlags)
    (st : LockState) : LockOut :=
  if flags.block = false then
    match p.rawLock flags env.directRaw with
    | none => ⟨some none, applyLock flags, [.rawLockCall]⟩
    | some e => ⟨some (some e), st, [.rawLockCall]⟩
  else
    if env.fallbackCtxWins then
      match env.fallbackRaced with
      | some r =>
        match p.rawLock flags r with
        | none => ⟨some none, applyLock flags, [.rawLockCall]⟩
        | some e => ⟨some (some e), st, [.rawLockCall]⟩
      | none => ⟨some (some env.ctxErr), st, [.rawLockCall]⟩
    else
      match p.rawLock flags env.fallbackRaw with
      | none => ⟨some none, applyLock flags, [.rawLockCall]⟩
      | some e => ⟨some (some e), st, [.rawLockCall]⟩

/-- `interruptibleLock` (lock.go): `preLock` first (an unconditional unlock
on Windows), then the entry context poll, then either the fallback (no
interruptible locks) or the retry loop. The watcher goroutine, thread pin
and thread token influence neither the returned error nor the lock state,
so they are not part of the model. -/
def interruptibleLock (p : Platform) (env : LockEnv) (flags : LockFlags)
    (st : LockState) : LockOut :=
  let st0 := if p.preUnlocks then LockState.unlocked else st
  let tr0 := if p.preUnlocks then [Ev.rawUnlockCall] else ([] : List Ev)
  if env.ctxCanceledAtEntry then ⟨some (some env.ctxErr), st0, tr0⟩
  else if p.hasInterruptible = false then
    let out := interruptibleLockFallback p env flags st0
    ⟨out.result, out.state, tr0 ++ out.trace⟩
  else
    let out := lockRetryLoop p flags env.ctxErr env.steps st0
    ⟨out.result, out.state, tr0 ++ out.trace⟩

/-- Public `Lock`: exclusive blocking acquisition, errors wrapped in an
`os.PathError` with operation "exclusive lock". -/
def Lock (p : Platform) (env : LockEnv) (name : String) (st : LockState) : LockOut :=
  let out := interruptibleLock p env ⟨true, true⟩ st
  ⟨out.result.map (wrapPathError "exclusive lock" name), out.state, out.trace⟩

/-- Public `RLock`: shared blocking acquisition, errors wrapped with
operation "shared lock". -/
def RLock (p : Platform) (env : LockEnv) (name : String) (st : LockState) : LockOut :=
  let out := interruptibleLock p env ⟨false, true⟩ st
  ⟨out.result.map (wrapPathError "shared lock" name), out.state, out.trace⟩

/-- Public `TryLock`: exclusive non-blocking acquisition over
`context.Background()`. -/
def TryLock (p : Platform) (env : LockEnv) (name : String) (st : LockState) : LockOut :=
  let out := interruptibleLock p (bgEnv env) ⟨true, false⟩ st
  ⟨out.result.map (wrapPathError "exclusive lock (non-blocking)" name), out.state, out.trace⟩

/-- Public `TryRLock`: shared non-blocking acquisition over
`context.Background()`. -/
def TryRLock (p : Platform) (env : LockEnv) (name : String) (st : LockState) : LockOut :=
  let out := interruptibleLock p (bgEnv env) ⟨false, false⟩ st
  ⟨out.result.map (wrapPathError "shared lock (non-blocking)" name), out.state, out.trace⟩

/-- Public `Unlock`: the raw unlock, errors wrapped with operation
"unlock". -/
def Unlock (p : Platform) (r : RawOutcome) (name : String) (st : LockState) : LockOut :=
  match p.rawUnlock r with
  | none => ⟨some none, .unlocked, [.rawUnlockCall]⟩
  | some e => ⟨some (some (.pathError "unlock" name e)), st, [.rawUnlockCall]⟩

/-- A file on disk: its inode number (the identity token used as canary)
and its byte content. Permission bits are not modelled; no claim concerns
them. -/
structure FileInfo where
  ino : Nat
  content : List Nat
deriving DecidableEq, Repr

/-- The file system: an association list from path to file, plus a counter
supplying fresh inode numbers. -/
structure FS where
  files : List (String × FileInfo)
  nextIno : Nat
deriving DecidableEq, Repr

/-- Look a path up in the file system. -/
def FS.lookup (fs : FS) (p : String) : Option FileInfo :=
  (fs.files.find? fun kv => kv.1 == p).map (·.2)

/-- Replace the content of the file at `p` (inode unchanged), as a
write or truncate through an open handle does. -/
def FS.setContent (fs : FS) (p : String) (c : List Nat) : FS :=
  { fs with
    files := fs.files.map fun kv =>
      if kv.1 == p then (kv.1, { kv.2 with content := c }) else kv }

/-- Create an empty file at `p` with a fresh inode, as
`os.OpenFile(p, O_WRONLY|O_CREATE, mode)` does when `p` is absent. -/
def FS.create (fs : FS) (p : String) : FileInfo × FS :=
  let fi : FileInfo := ⟨fs.nextIno, []⟩
  (fi, ⟨(p, fi) :: fs.files, fs.nextIno + 1⟩)

/-- POSIX `rename(src, dst)`: the file at `src` (inode preserved) replaces
whatever was at `dst`, and the name `src` disappears. -/
def FS.rename (fs : FS) (src : String) (dst : String) : FS :=
  match fs.lookup src with
  | none => fs
  | some fi =>
    { fs with files := (dst, fi) :: fs.files.filter fun kv => kv.1 != src && kv.1 != dst }

/-- `errors.Is(err, os.ErrNotExist)`: unwrap PathError/SyscallError layers
and test for the not-exist sentinel. -/
def isNotExist : Err → Bool
  | .notExist => true
  | .syscallError _ e => isNotExist e
  | .pathError _ _ e => isNotExist e
  | _ => false

/-- The `Store[T]` descriptor: the injected encoder and decoder factories.
The encoder is modelled by the bytes it writes for a value; the decoder by
a function from the file's bytes and the current pointee to the returned
error and the (possibly partially) mutated pointee, mirroring
`Decode(v any) error` writing through `v`. -/
structure StoreDesc (T : Type) where
  newEncoder : T → List Nat
  newDecoder : List Nat → T → Option Err × T

/-- Environment of one `Load` call: the two context polls, the context's
error, and injected failures of `RLock` and of the final `lstatIno` on the
open handle. -/
structure LoadEnv where
  ctxCanceledAtEntry : Bool
  ctxCanceledAfterLock : Bool
  ctxErr : Err
  rlockErr : Option Err
  fstatErr : Option Err
deriving Repr

/-- Result of `Load`: the canary (inode of the handle) on success, the
returned error, the pointee after the call, and the emitted events. -/
structure LoadOut (T : Type) where
  canary : Option Nat
  err : Option Err
  val : T
  trace : List Ev
deriving Repr

/-- `Store.Load` (store.go): poll the context, open the path read-only
(not-exist surfaces as the open error), `RLock`, poll again, decode into
the pointee, then take the open handle's inode as the canary. The read
lock is released by the deferred close on every exit after the open. -/
def StoreDesc.Load {T : Type} (sd : StoreDesc T) (env : LoadEnv) (path : String)
    (v : T) (fs : FS) : LoadOut T :=
  if env.ctxCanceledAtEntry then ⟨none, some env.ctxErr, v, []⟩
  else
    match fs.lookup path with
    | none => ⟨none, some (.pathError "open" path .notExist), v, [.openCall path]⟩
    | some fi =>
      match env.rlockErr with
      | some e =>
        ⟨none, some (.pathError "shared lock" path e), v,
          [.openCall path, .closeCall path]⟩
      | none =>
        if env.ctxCanceledAfterLock then
          ⟨none, some env.ctxErr, v, [.openCall path, .closeCall path]⟩
        else
          match sd.newDecoder fi.content v with
          | (some e, v') =>
            ⟨none, some e, v', [.openCall path, .decodeCall, .closeCall path]⟩
          | (none, v') =>
            match env.fstatErr with
            | some e =>
              ⟨none, some e, v', [.openCall path, .decodeCall, .closeCall path]⟩
            | none =>
              ⟨some fi.ino, none, v', [.openCall path, .decodeCall, .closeCall path]⟩

/-- Environment of one `Store` call: the entry context poll and its error,
an injected failure of the sidecar open, the result of `Lock` on the
sidecar (already wrapped, as Store receives it), an optional replacement
file system modelling a concurrent writer that completed while we blocked
on the lock, and injected failures of the remaining syscalls and of the
injected encoder. -/
structure StoreEnv where
  ctxCanceledAtEntry : Bool
  ctxErr : Err
  openErr : Option Err
  lockErr : Option Err
  interference : Option FS
  statPathErr : Option Err
  deletedErr : Option Err
  truncateErr : Option Err
  encodeErr : Option Err
  renameErr : Option Err
deriving Repr

/-- Result of `Store`: the returned error, the file system after the call,
and the emitted events. -/
structure StoreOut where
  err : Option Err
  fs : FS
  trace : List Ev
deriving DecidableEq, Repr

/-- `os.OpenFile(name, O_WRONLY|O_CREATE, mode)`: open the existing file
(keeping its content: no O_TRUNC) or create an empty one with a fresh
inode. Returns the handle's file and the resulting file system. -/
def openWronlyCreate (fs : FS) (name : String) : FileInfo × FS :=
  match fs.lookup name with
  | some fi => (fi, fs)
  | none => FS.create fs name

/-- `lstatIno` (store_unix.go / store_linux.go): the inode of the open
handle when `path` is empty (the fstat arm), else the inode of the named
file; a missing name yields a PathError around not-exist. Stat failures
other than not-exist are injected through the environment by callers. -/
def lstatIno (fs : FS) (handleIno : Option Nat) (path : String) : Nat × Option Err :=
  if path = "" then
    match handleIno with
    | some i => (i, none)
    | none => (0, some (.pathError "fstat" "fd" .notExist))
  else
    match fs.lookup path with
    | some fi => (fi.ino, none)
    | none => (0, some (.pathError "stat" path .notExist))

/-- `deleted` (store_unix.go): fstat the handle and lstat its name; a
missing name or a differing inode means another Store's rename orphaned
the handle. -/
def deleted (fs : FS) (wfIno : Nat) (name : String) : Bool × Option Err :=
  match fs.lookup name with
  | none => (true, none)
  | some fi => (fi.ino != wfIno, none)

/-- The stat-error filter in Store's canary check:
`err != nil && !errors.Is(err, os.ErrNotExist)`. -/
def statFatal : Option Err → Option Err
  | some e => if isNotExist e then none else some e
  | none => none

/-- The `lstatIno(nil, path)` call in Store's canary check, with an
environment-injected stat failure (a real OS error such as EACCES) taking
precedence over the file-system-derived result. -/
def storeStat (env : StoreEnv) (fs2 : FS) (path : String) : Nat × Option Err :=
  match env.statPathErr with
  | some e => (0, some e)
  | none => lstatIno fs2 none path

/-- `Store.Store` (store.go): poll the context; open (creating if absent)
the sidecar `path ++ ".lock"`; `Lock` it; compare the inode of `path`
(0 when missing, not-exist tolerated) against the caller's canary
(`canary.(uint64)`, so nil reads as 0) and return `ErrRetry` on mismatch;
run the `deleted` check on the sidecar handle and return `ErrRetry` if the
sidecar name no longer refers to the handle's inode; truncate the sidecar,
encode into it, and rename it onto `path`. The deferred `wf.Close()` emits
a close event on every exit after a successful open; there is no deferred
remove. After a failed encode the sidecar keeps the empty content left by
the truncation: the opaque encoder's partial output is not modelled, and
no claim depends on it. -/
def StoreDesc.Store {T : Type} (sd : StoreDesc T) (env : StoreEnv) (path : String)
    (_mode : Nat) (canary : Option Nat) (v : T) (fs : FS) : StoreOut :=
  if env.ctxCanceledAtEntry then ⟨some env.ctxErr, fs, []⟩
  else
    match env.openErr with
    | some e => ⟨some e, fs, [.openCall (path ++ ".lock")]⟩
    | none =>
      match env.lockErr with
      | some e =>
        ⟨some e, (openWronlyCreate fs (path ++ ".lock")).2,
          [.openCall (path ++ ".lock"), .closeCall (path ++ ".lock")]⟩
      | none =>
        match statFatal
            (storeStat env (env.interference.getD (openWronlyCreate fs (path ++ ".lock")).2)
              path).2 with
        | some e =>
          ⟨some e, env.interference.getD (openWronlyCreate fs (path ++ ".lock")).2,
            [.openCall (path ++ ".lock"), .closeCall (path ++ ".lock")]⟩
        | none =>
          if (storeStat env (env.interference.getD (openWronlyCreate fs (path ++ ".lock")).2)
                path).1 ≠ canary.getD 0 then
            ⟨some .retry, env.interference.getD (openWronlyCreate fs (path ++ ".lock")).2,
              [.openCall (path ++ ".lock"), .closeCall (path ++ ".lock")]⟩
          else
            match env.deletedErr with
            | some e =>
              ⟨some e, env.interference.getD (openWronlyCreate fs (path ++ ".lock")).2,
                [.openCall (path ++ ".lock"), .closeCall (path ++ ".lock")]⟩
            | none =>
              if (deleted (env.interference.getD (openWronlyCreate fs (path ++ ".lock")).2)
                    (openWronlyCreate fs (path ++ ".lock")).1.ino (path ++ ".lock")).1 then
                ⟨some .retry,
                  env.interference.getD (openWronlyCreate fs (path ++ ".lock")).2,
                  [.openCall (path ++ ".lock"), .closeCall (path ++ ".lock")]⟩
              else
                match env.truncateErr with
                | some e =>
                  ⟨some e, env.interference.getD (openWronlyCreate fs (path ++ ".lock")).2,
                    [.openCall (path ++ ".lock"), .truncateCall (path ++ ".lock"),
                      .closeCall (path ++ ".lock")]⟩
                | none =>
                  match env.encodeErr with
                  | some e =>
                    ⟨some e,
                      (env.interference.getD
                          (openWronlyCreate fs (path ++ ".lock")).2).setContent
                        (path ++ ".lock") [],
                      [.openCall (path ++ ".lock"), .truncateCall (path ++ ".lock"),
                        .encodeCall, .closeCall (path ++ ".lock")]⟩
                  | none =>
                    match env.renameErr with
                    | some e =>
                      ⟨some e,
                        ((env.interference.getD
                              (openWronlyCreate fs (path ++ ".lock")).2).setContent
                            (path ++ ".lock") []).setContent (path ++ ".lock")
                          (sd.newEncoder v),
                        [.openCall (path ++ ".lock"), .truncateCall (path ++ ".lock"),
                          .encodeCall, .closeCall (path ++ ".lock")]⟩
                    | none =>
                      ⟨none,
                        (((env.interference.getD
                                (openWronlyCreate fs (path ++ ".lock")).2).setContent
                              (path ++ ".lock") []).setContent (path ++ ".lock")
                            (sd.newEncoder v)).rename (path ++ ".lock") path,
                        [.openCall (path ++ ".lock"), .truncateCall (path ++ ".lock"),
                          .encodeCall, .renameCall (path ++ ".lock") path,
                          .closeCall (path ++ ".lock")]⟩

/-- One invocation of the user callback, as `LoadAndStore` logs it: the
pointee it received and the load error it received. -/
structure CallbackRecord (T : Type) where
  val : T
  loadErr : Option Err
deriving DecidableEq, Repr

/-- Environment of one `tryLoadAndStore` iteration. -/
structure IterEnv where
  loadEnv : LoadEnv
  storeEnv : StoreEnv
deriving Repr

/-- Result of one `tryLoadAndStore` iteration: the returned error, the file
system after it, the callback invocations, and the emitted events. -/
structure TryOut (T : Type) where
  err : Option Err
  fs : FS
  calls : List (CallbackRecord T)
  trace : List Ev
deriving Repr

/-- `Store.tryLoadAndStore` (store.go): start from the zero value (`var
value T`), `Load` into it, call the user callback with the pointee and the
load error, return the callback's error if non-nil, otherwise `Store` the
(possibly modified) value with the canary `Load` produced (nil on load
failure). `zero` stands for Go's zero value of `T`. -/
def StoreDesc.tryLoadAndStore {T : Type} (sd : StoreDesc T) (zero : T)
    (env : IterEnv) (path : String) (mode : Nat)
    (fn : T → Option Err → Option Err × T) (fs : FS) : TryOut T :=
  let lo := sd.Load env.loadEnv path zero fs
  let fr := fn lo.val lo.err
  match fr.1 with
  | some e => ⟨some e, fs, [⟨lo.val, lo.err⟩], lo.trace ++ [.callbackCall]⟩
  | none =>
    let so := sd.Store env.storeEnv path mode lo.canary fr.2 fs
    ⟨so.err, so.fs, [⟨lo.val, lo.err⟩], lo.trace ++ [.callbackCall] ++ so.trace⟩

/-- The `for err == ErrRetry` loop body of `Store.LoadAndStore`, one
iteration environment per executed iteration. A `none` result means every
modelled iteration ended in `ErrRetry` and the loop is still running. -/
def lasLoop {T : Type} (sd : StoreDesc T) (zero : T) (path : String) (mode : Nat)
    (fn : T → Option Err → Option Err × T) :
    Option Err → List IterEnv → FS → Option (Option Err) × FS
  | err, [], fs => if err = some .retry then (none, fs) else (some err, fs)
  | err, e :: rest, fs =>
    if err = some .retry then
      let out := sd.tryLoadAndStore zero e path mode fn fs
      lasLoop sd zero path mode fn out.err rest out.fs
    else (some err, fs)

/-- `Store.LoadAndStore` (store.go): `err := ErrRetry; for err == ErrRetry
{ err = tryLoadAndStore(...) }; return err`. -/
def StoreDesc.LoadAndStore {T : Type} (sd : StoreDesc T) (zero : T)
    (envs : List IterEnv) (path : String) (mode : Nat)
    (fn : T → Option Err → Option Err × T) (fs : FS) : Option (Option Err) × FS :=
  lasLoop sd zero path mode fn (some .retry) envs fs

/-- Whether an error is, or wraps (as `errors.Is` would find), the
`errLockInterrupted` sentinel. -/
def mentionsInterrupted : Err → Bool
  | .lockInterrupted => true
  | .syscallError _ e => mentionsInterrupted e
  | .pathError _ _ e => mentionsInterrupted e
  | _ => false

/-- Whether an error is, or wraps, the `ErrWouldBlock` sentinel. -/
def mentionsWouldBlock : Err → Bool
  | .wouldBlock => true
  | .syscallError _ e => mentionsWouldBlock e
  | .pathError _ _ e => mentionsWouldBlock e
  | _ => false

/-- The identity token `Store` computes for a path: the inode number, 0
when the file is missing (the code's comment: "an inode of 0 means the
file was missing"). -/
def currentIno (fs : FS) (p : String) : Nat :=
  ((fs.lookup p).map (·.ino)).getD 0

/-- A concrete codec over `Nat` whose encoder and decoder are mutual
inverses: used by witnesses. -/
def natCodec : StoreDesc Nat :=
  ⟨fun n => [n],
   fun b w => match b with
     | [n] => (none, n)
     | _ => (some (.userErr 0), w)⟩

/-- A concrete decoder that mutates the pointee and then fails: a legal
injected `Decoder` (Go's `Decode(v any) error` writes through `v`). -/
def mutatingCodec : StoreDesc Nat :=
  ⟨fun n => [n], fun _ _ => (some (.userErr 1), 99)⟩

/-- A `Load` environment where no failure is injected and the context is
never cancelled. -/
def benignLoadEnv : LoadEnv := ⟨false, false, .canceled, none, none⟩

/-- A `Store` environment where no failure is injected, there is no
concurrent writer, and the context is never cancelled. -/
def benignStoreEnv : StoreEnv :=
  ⟨false, .canceled, none, none, none, none, none, none, none, none⟩

/-- A benign `LoadAndStore` iteration environment. -/
def benignIterEnv : IterEnv := ⟨benignLoadEnv, benignStoreEnv⟩

/-- A one-file file system: "p" holds bytes [7] under inode 1. -/
def fsP : FS := ⟨[("p", ⟨1, [7]⟩)], 2⟩

/-- The empty file system. -/
def fsEmpty : FS := ⟨[], 1⟩

/-- A one-file file system as another writer would leave it: "p" holds
bytes [7] under inode 9. -/
def intfFS : FS := ⟨[("p", ⟨9, [7]⟩)], 10⟩

/-- An iteration environment in which a concurrent writer completed while
this Store blocked on the sidecar lock, replacing the destination. -/
def retryIterEnv : IterEnv :=
  ⟨benignLoadEnv, { benignStoreEnv with interference := some intfFS }⟩

/-- A lock environment whose token is already cancelled at entry. -/
def cancelledLockEnv : LockEnv := ⟨true, .canceled, [], .ok, false, none, .ok⟩

/-- A lock environment with the given raw-lock iteration outcomes and no
cancellation anywhere. -/
def stepsLockEnv (steps : List LoopStep) : LockEnv :=
  ⟨false, .canceled, steps, .ok, false, none, .ok⟩

theorem mentionsInterrupted_pathError (op path : String) (e : Err) :
    mentionsInterrupted (.pathError op path e) = mentionsInterrupted e := rfl

theorem bgEnv_ctxErr (env : LockEnv) : (bgEnv env).ctxErr = env.ctxErr := rfl

/-- On each of the three platforms, the raw lock mapping yields either the
`errLockInterrupted` sentinel itself or an error that does not wrap it. -/
theorem rawLock_interrupt_or_clean (p : Platform)
    (hp : p = unixPlatform ∨ p = darwinPlatform ∨ p = windowsPlatform)
    (fl : LockFlags) (r : RawOutcome) (e : Err) (h : p.rawLock fl r = some e) :
    e = .lockInterrupted ∨ mentionsInterrupted e = false := by
  rcases hp with h1 | h1 | h1 <;> subst h1
  · cases r with
    | ok => simp [unixPlatform, lockUnixRaw] at h
    | fail n =>
      simp only [unixPlatform, lockUnixRaw] at h
      split_ifs at h <;> simp only [Option.some.injEq] at h <;> subst h <;>
        first
        | exact Or.inl rfl
        | exact Or.inr rfl
  · cases r with
    | ok => simp [darwinPlatform, lockDarwinRaw] at h
    | fail n =>
      simp only [darwinPlatform, lockDarwinRaw] at h
      split_ifs at h <;> simp only [Option.some.injEq] at h <;> subst h <;>
        first
        | exact Or.inl rfl
        | exact Or.inr rfl
  · cases r with
    | ok => simp [windowsPlatform, lockWindowsRaw] at h
    | fail n =>
      simp only [windowsPlatform, lockWindowsRaw] at h
      split_ifs at h <;> simp only [Option.some.injEq] at h <;> subst h <;>
        first
        | exact Or.inl rfl
        | exact Or.inr rfl

/-- On a platform without interruptible locks (darwin), the raw lock never
produces the `errLockInterrupted` sentinel. -/
theorem rawLock_fallback_not_interrupted (p : Platform)
    (hp : p = unixPlatform ∨ p = darwinPlatform ∨ p = windowsPlatform)
    (hfb : p.hasInterruptible = false) (fl : LockFlags) (r : RawOutcome) :
    p.rawLock fl r ≠ some .lockInterrupted := by
  rcases hp with h1 | h1 | h1 <;> subst h1
  · simp [unixPlatform] at hfb
  · cases r with
    | ok => simp [darwinPlatform, lockDarwinRaw]
    | fail n =>
      simp only [darwinPlatform, lockDarwinRaw]
      split_ifs <;> simp
  · simp [windowsPlatform] at hfb

/-- The retry loop never returns the `errLockInterrupted` sentinel, nor any
error wrapping it, provided the raw mapping only produces the sentinel bare
and the context's error does not wrap it. -/
theorem lockRetryLoop_result_not_interrupted (p : Platform) (fl : LockFlags) (cErr : Err)
    (hraw : ∀ r e, p.rawLock fl r = some e → e = .lockInterrupted ∨ mentionsInterrupted e = false)
    (hctx : mentionsInterrupted cErr = false) :
    ∀ (steps : List LoopStep) (st : LockState) (e : Err),
      (lockRetryLoop p fl cErr steps st).result = some (some e) →
      mentionsInterrupted e = false := by
  intro steps
  induction steps with
  | nil => intro st e h; simp [lockRetryLoop] at h
  | cons s rest ih =>
    intro st e h
    unfold lockRetryLoop at h
    cases hr : p.rawLock fl s.raw with
    | none => simp [hr] at h
    | some e1 =>
      simp only [hr] at h
      by_cases he : e1 = Err.lockInterrupted
      · simp only [he, if_pos rfl] at h
        by_cases hc : s.ctxCanceledAfter = true
        · simp only [hc, if_pos rfl] at h
          simp at h
          subst h
          exact hctx
        · simp only [Bool.not_eq_true] at hc
          rw [if_neg (show ¬ (s.ctxCanceledAfter = true) by simp [hc])] at h
          simp at h
          exact ih st e h
      · simp only [if_neg he] at h
        simp at h
        subst h
        rcases hraw s.raw e1 hr with h1 | h1
        · exact absurd h1 he
        · exact h1

/-- If the retry loop exits with an error, the handle's lock state is
unchanged: only a successful raw lock changes it. -/
theorem lockRetryLoop_state_of_error (p : Platform) (fl : LockFlags) (cErr : Err) :
    ∀ (steps : List LoopStep) (st : LockState) (e : Err),
      (lockRetryLoop p fl cErr steps st).result = some (some e) →
      (lockRetryLoop p fl cErr steps st).state = st := by
  intro steps
  induction steps with
  | nil => intro st e h; simp [lockRetryLoop] at h
  | cons s rest ih =>
    intro st e h
    unfold lockRetryLoop at h ⊢
    cases hr : p.rawLock fl s.raw with
    | none => simp [hr] at h
    | some e1 =>
      simp only [hr] at h ⊢
      by_cases he : e1 = Err.lockInterrupted
      · simp only [he, if_pos rfl] at h ⊢
        by_cases hc : s.ctxCanceledAfter = true
        · simp [hc]
        · simp only [Bool.not_eq_true] at hc
          rw [if_neg (show ¬ (s.ctxCanceledAfter = true) by simp [hc])] at h ⊢
          simp at h ⊢
          exact ih st e h
      · simp [if_neg he]

/-- If the fallback exits with an error, the handle's lock state is
unchanged. -/
theorem fallback_state_of_error (p : Platform) (env : LockEnv) (fl : LockFlags)
    (st : LockState) (e : Err)
    (h : (interruptibleLockFallback p env fl st).result = some (some e)) :
    (interruptibleLockFallback p env fl st).state = st := by
  unfold interruptibleLockFallback at h ⊢
  by_cases hb : fl.block = false
  · simp only [hb, if_pos rfl] at h ⊢
    cases hr : p.rawLock fl env.directRaw with
    | none => simp [hr] at h
    | some e1 => simp [hr]
  · simp only [if_neg hb] at h ⊢
    by_cases hw : env.fallbackCtxWins = true
    · simp only [hw, if_pos rfl] at h ⊢
      cases hrc : env.fallbackRaced with
      | none => simp [hrc]
      | some r =>
        simp only [hrc] at h ⊢
        cases hr : p.rawLock fl r with
        | none => simp [hr] at h
        | some e1 => simp [hr]
    · simp only [Bool.not_eq_true] at hw
      rw [if_neg (show ¬ (env.fallbackCtxWins = true) by simp [hw])] at h ⊢
      cases hr : p.rawLock fl env.fallbackRaw with
      | none => simp [hr] at h
      | some e1 => simp [hr]

/-- With a context already cancelled at entry, `interruptibleLock` returns
the context's error directly after `preLock`: no raw lock call happens. -/
theorem interruptibleLock_canceled (p : Platform) (env : LockEnv) (fl : LockFlags)
    (st : LockState) (hc : env.ctxCanceledAtEntry = true) :
    interruptibleLock p env fl st =
      ⟨some (some env.ctxErr),
       if p.preUnlocks then .unlocked else st,
       if p.preUnlocks then [.rawUnlockCall] else []⟩ := by
  unfold interruptibleLock
  simp [hc]

/-- A fallback error result never wraps the `errLockInterrupted` sentinel,
on any of the three platforms. -/
theorem fallback_result_not_interrupted (p : Platform) (env : LockEnv) (fl : LockFlags)
    (st : LockState) (e : Err)
    (hp : p = unixPlatform ∨ p = darwinPlatform ∨ p = windowsPlatform)
    (hfb : p.hasInterruptible = false)
    (hctx : mentionsInterrupted env.ctxErr = false)
    (h : (interruptibleLockFallback p env fl st).result = some (some e)) :
    mentionsInterrupted e = false := by
  have hres : ∀ r : RawOutcome, p.rawLock fl r = some e → mentionsInterrupted e = false := by
    intro r hr
    rcases rawLock_interrupt_or_clean p hp fl r e hr with h1 | h1
    · exact absurd (h1 ▸ hr) (rawLock_fallback_not_interrupted p hp hfb fl r)
    · exact h1
  unfold interruptibleLockFallback at h
  by_cases hb : fl.block = false
  · simp only [hb, if_pos rfl] at h
    cases hr : p.rawLock fl env.directRaw with
    | none => simp [hr] at h
    | some e1 =>
      simp only [hr] at h
      simp at h
      exact h ▸ hres env.directRaw (h ▸ hr)
  · simp only [if_neg hb] at h
    by_cases hw : env.fallbackCtxWins = true
    · simp only [hw, if_pos rfl] at h
      cases hrc : env.fallbackRaced with
      | none => simp [hrc] at h; exact h ▸ hctx
      | some r =>
        simp only [hrc] at h
        cases hr : p.rawLock fl r with
        | none => simp [hr] at h
        | some e1 =>
          simp only [hr] at h
          simp at h
          exact h ▸ hres r (h ▸ hr)
    · simp only [Bool.not_eq_true] at hw
      rw [if_neg (show ¬ (env.fallbackCtxWins = true) by simp [hw])] at h
      cases hr : p.rawLock fl env.fallbackRaw with
      | none => simp [hr] at h
      | some e1 =>
        simp only [hr] at h
        simp at h
        exact h ▸ hres env.fallbackRaw (h ▸ hr)

/-- An `interruptibleLock` error result never wraps the
`errLockInterrupted` sentinel, on any of the three platforms. -/
theorem interruptibleLock_result_not_interrupted (p : Platform) (env : LockEnv)
    (fl : LockFlags) (st : LockState) (e : Err)
    (hp : p = unixPlatform ∨ p = darwinPlatform ∨ p = windowsPlatform)
    (hctx : mentionsInterrupted env.ctxErr = false)
    (h : (interruptibleLock p env fl st).result = some (some e)) :
    mentionsInterrupted e = false := by
  unfold interruptibleLock at h
  by_cases hc : env.ctxCanceledAtEntry = true
  · simp only [hc, if_pos rfl] at h
    simp at h
    exact h ▸ hctx
  · simp only [Bool.not_eq_true] at hc
    rw [if_neg (show ¬ (env.ctxCanceledAtEntry = true) by simp [hc])] at h
    by_cases hi : p.hasInterruptible = false
    · simp only [hi, if_pos rfl] at h
      exact fallback_result_not_interrupted p env fl
        (if p.preUnlocks then LockState.unlocked else st) e hp hi hctx (by simpa using h)
    · rw [if_neg hi] at h
      refine lockRetryLoop_result_not_interrupted p fl env.ctxErr ?_ hctx env.steps
        (if p.preUnlocks then LockState.unlocked else st) e (by simpa using h)
      intro r e1 hr
      exact rawLock_interrupt_or_clean p hp fl r e1 hr

/-- If `interruptibleLock` returns an error, the lock state at return is
the entry state, except that on pre-unlocking platforms it is unlocked. -/
theorem interruptibleLock_state_of_error (p : Platform) (env : LockEnv) (fl : LockFlags)
    (st : LockState) (e : Err)
    (h : (interruptibleLock p env fl st).result = some (some e)) :
    (interruptibleLock p env fl st).state =
      (if p.preUnlocks then LockState.unlocked else st) := by
  unfold interruptibleLock at h ⊢
  by_cases hc : env.ctxCanceledAtEntry = true
  · simp [hc]
  · simp only [Bool.not_eq_true] at hc
    rw [if_neg (show ¬ (env.ctxCanceledAtEntry = true) by simp [hc])] at h ⊢
    by_cases hi : p.hasInterruptible = false
    · simp only [hi, if_pos rfl] at h ⊢
      exact fallback_state_of_error p env fl _ e (by simpa using h)
    · rw [if_neg hi] at h ⊢
      exact lockRetryLoop_state_of_error p fl env.ctxErr env.steps _ e (by simpa using h)

/-- On a pre-unlocking platform the very first emitted event of
`interruptibleLock` is the raw unlock issued by `preLock`. -/
theorem interruptibleLock_trace_head (p : Platform) (env : LockEnv) (fl : LockFlags)
    (st : LockState) (hpre : p.preUnlocks = true) :
    (interruptibleLock p env fl st).trace.head? = some .rawUnlockCall := by
  unfold interruptibleLock
  by_cases hc : env.ctxCanceledAtEntry = true
  · simp [hc, hpre]
  · simp only [Bool.not_eq_true] at hc
    rw [if_neg (show ¬ (env.ctxCanceledAtEntry = true) by simp [hc])]
    by_cases hi : p.hasInterruptible = false
    · simp [hi, hpre]
    · rw [if_neg hi]
      simp [hpre]

/-- Inversion of the public wrapping: a wrapped error result comes from an
inner error result wrapped in the corresponding PathError. -/
theorem publicResult_inv (op name : String) (r : Option (Option Err)) (e : Err)
    (h : r.map (wrapPathError op name) = some (some e)) :
    ∃ e1, r = some (some e1) ∧ e = .pathError op name e1 := by
  cases r with
  | none =>
    have h2 : (none : Option (Option Err)) = some (some e) := h
    simp at h2
  | some y =>
    cases y with
    | none =>
      have h2 : (some (none : Option Err)) = some (some e) := h
      simp at h2
    | some e1 =>
      have h2 : (some (some (Err.pathError op name e1))) = some (some e) := h
      simp only [Option.some.injEq] at h2
      exact ⟨e1, rfl, h2.symm⟩

/-- C7: when the Unix flock syscall fails with an errno other than
EWOULDBLOCK and EINTR, the raw lock returns a SyscallError tagged with the
operation name "flock" carrying that errno; the result neither is nor
wraps ErrWouldBlock; and a blocking `Lock` surfaces it to the caller inside
the usual PathError instead of converting it. -/
theorem C7_unix_default_arm_surfaces_error (fl : LockFlags) (n : Nat)
    (name : String) (st : LockState)
    (h1 : n ≠ EINTR) (h2 : n ≠ EWOULDBLOCK) :
    lockUnixRaw fl (.fail n) = some (.syscallError "flock" (.errno n)) ∧
    mentionsWouldBlock (.syscallError "flock" (.errno n)) = false ∧
    (Lock unixPlatform (stepsLockEnv [⟨.fail n, false⟩]) name st).result =
      some (some (.pathError "exclusive lock" name (.syscallError "flock" (.errno n)))) := by
  refine ⟨?_, rfl, ?_⟩
  · simp [lockUnixRaw, h1, h2]
  · simp [Lock, interruptibleLock, stepsLockEnv, lockRetryLoop, unixPlatform,
      lockUnixRaw, h1, h2, wrapPathError]

/-- Witness for C7 at errno 13 (EACCES). -/
theorem C7_witness :
    (13 ≠ EINTR ∧ 13 ≠ EWOULDBLOCK) ∧
    lockUnixRaw ⟨true, true⟩ (.fail 13) = some (.syscallError "flock" (.errno 13)) ∧
    mentionsWouldBlock (.syscallError "flock" (.errno 13)) = false ∧
    (Lock unixPlatform (stepsLockEnv [⟨.fail 13, false⟩]) "f" .unlocked).result =
      some (some (.pathError "exclusive lock" "f" (.syscallError "flock" (.errno 13)))) :=
  ⟨⟨by decide, by decide⟩,
   C7_unix_default_arm_surfaces_error ⟨true, true⟩ 13 "f" .unlocked (by decide) (by decide)⟩

/-- C6: for every blocking Lock or RLock on every platform, a raw lock
return of the `errLockInterrupted` sentinel while the token is not observed
cancelled makes the engine retry the raw lock call (the outcome is that of
the remaining iterations, with one more raw lock call recorded); and an
unrelated signal, which materializes as that sentinel, never surfaces: no
error returned by a blocking Lock/RLock is or wraps `errLockInterrupted`. -/
theorem C6_spurious_interrupt_retried_never_surfaces :
    (∀ (p : Platform) (fl : LockFlags) (cErr : Err) (s : LoopStep)
        (rest : List LoopStep) (st : LockState),
      p.rawLock fl s.raw = some .lockInterrupted → s.ctxCanceledAfter = false →
      lockRetryLoop p fl cErr (s :: rest) st =
        ⟨(lockRetryLoop p fl cErr rest st).result,
         (lockRetryLoop p fl cErr rest st).state,
         .rawLockCall :: (lockRetryLoop p fl cErr rest st).trace⟩) ∧
    (∀ (p : Platform) (env : LockEnv) (name : String) (st : LockState) (e : Err),
      (p = unixPlatform ∨ p = darwinPlatform ∨ p = windowsPlatform) →
      mentionsInterrupted env.ctxErr = false →
      ((Lock p env name st).result = some (some e) ∨
        (RLock p env name st).result = some (some e)) →
      mentionsInterrupted e = false) := by
  constructor
  · intro p fl cErr s rest st hr hc
    conv_lhs => rw [lockRetryLoop]
    simp [hr, hc]
  · intro p env name st e hp hctx hres
    rcases hres with hres | hres
    · obtain ⟨e1, hinner, hwrap⟩ :=
        publicResult_inv "exclusive lock" name (interruptibleLock p env ⟨true, true⟩ st).result e hres
      rw [hwrap, mentionsInterrupted_pathError]
      exact interruptibleLock_result_not_interrupted p env ⟨true, true⟩ st e1 hp hctx hinner
    · obtain ⟨e1, hinner, hwrap⟩ :=
        publicResult_inv "shared lock" name (interruptibleLock p env ⟨false, true⟩ st).result e hres
      rw [hwrap, mentionsInterrupted_pathError]
      exact interruptibleLock_result_not_interrupted p env ⟨false, true⟩ st e1 hp hctx hinner

/-- Witness for C6: a spurious EINTR with an uncancelled token is retried
and the next successful flock finishes the call; a cancelled blocking Lock
returns an error that does not wrap the sentinel. -/
theorem C6_witness :
    (lockRetryLoop unixPlatform ⟨true, true⟩ .canceled
        [⟨.fail EINTR, false⟩, ⟨.ok, false⟩] .unlocked =
      ⟨(lockRetryLoop unixPlatform ⟨true, true⟩ .canceled [⟨.ok, false⟩] .unlocked).result,
       (lockRetryLoop unixPlatform ⟨true, true⟩ .canceled [⟨.ok, false⟩] .unlocked).state,
       .rawLockCall ::
         (lockRetryLoop unixPlatform ⟨true, true⟩ .canceled [⟨.ok, false⟩] .unlocked).trace⟩) ∧
    mentionsInterrupted (.pathError "exclusive lock" "f" .canceled) = false :=
  ⟨C6_spurious_interrupt_retried_never_surfaces.1 unixPlatform ⟨true, true⟩ .canceled
      ⟨.fail EINTR, false⟩ [⟨.ok, false⟩] .unlocked rfl rfl,
   C6_spurious_interrupt_retried_never_surfaces.2 unixPlatform cancelledLockEnv "f" .unlocked
      (.pathError "exclusive lock" "f" .canceled) (Or.inl rfl) rfl (Or.inl rfl)⟩

/-- If a public lock operation's wrapped result is an error, the handle's
lock state at return is the entry state, or unlocked on a pre-unlocking
platform. -/
theorem public_state_of_error (p : Platform) (env : LockEnv) (fl : LockFlags)
    (op name : String) (st : LockState) (e : Err)
    (h : ((interruptibleLock p env fl st).result.map (wrapPathError op name)) =
      some (some e)) :
    (interruptibleLock p env fl st).state =
      (if p.preUnlocks then LockState.unlocked else st) := by
  obtain ⟨e1, hinner, -⟩ := publicResult_inv op name _ e h
  exact interruptibleLock_state_of_error p env fl st e1 hinner

/-- C8: on Windows, every Lock, RLock, TryLock and TryRLock first issues an
unconditional raw unlock (its first event), so a call that returns an error
leaves the handle unlocked; on Unix and Darwin, a call that returns an
error leaves the handle's previous lock state intact. -/
theorem C8_windows_relaxation_others_preserve_state :
    (∀ (env : LockEnv) (name : String) (st : LockState),
      (Lock windowsPlatform env name st).trace.head? = some .rawUnlockCall ∧
      (RLock windowsPlatform env name st).trace.head? = some .rawUnlockCall ∧
      (TryLock windowsPlatform env name st).trace.head? = some .rawUnlockCall ∧
      (TryRLock windowsPlatform env name st).trace.head? = some .rawUnlockCall) ∧
    (∀ (env : LockEnv) (name : String) (st : LockState) (e : Err),
      ((Lock windowsPlatform env name st).result = some (some e) →
        (Lock windowsPlatform env name st).state = .unlocked) ∧
      ((RLock windowsPlatform env name st).result = some (some e) →
        (RLock windowsPlatform env name st).state = .unlocked) ∧
      ((TryLock windowsPlatform env name st).result = some (some e) →
        (TryLock windowsPlatform env name st).state = .unlocked) ∧
      ((TryRLock windowsPlatform env name st).result = some (some e) →
        (TryRLock windowsPlatform env name st).state = .unlocked)) ∧
    (∀ (p : Platform), (p = unixPlatform ∨ p = darwinPlatform) →
      ∀ (env : LockEnv) (name : String) (st : LockState) (e : Err),
      ((Lock p env name st).result = some (some e) → (Lock p env name st).state = st) ∧
      ((RLock p env name st).result = some (some e) → (RLock p env name st).state = st) ∧
      ((TryLock p env name st).result = some (some e) → (TryLock p env name st).state = st) ∧
      ((TryRLock p env name st).result = some (some e) →
        (TryRLock p env name st).state = st)) := by
  refine ⟨?_, ?_, ?_⟩
  · intro env name st
    exact ⟨interruptibleLock_trace_head windowsPlatform env ⟨true, true⟩ st rfl,
      interruptibleLock_trace_head windowsPlatform env ⟨false, true⟩ st rfl,
      interruptibleLock_trace_head windowsPlatform (bgEnv env) ⟨true, false⟩ st rfl,
      interruptibleLock_trace_head windowsPlatform (bgEnv env) ⟨false, false⟩ st rfl⟩
  · intro env name st e
    refine ⟨fun h => ?_, fun h => ?_, fun h => ?_, fun h => ?_⟩
    · simpa using public_state_of_error windowsPlatform env ⟨true, true⟩
        "exclusive lock" name st e h
    · simpa using public_state_of_error windowsPlatform env ⟨false, true⟩
        "shared lock" name st e h
    · simpa using public_state_of_error windowsPlatform (bgEnv env) ⟨true, false⟩
        "exclusive lock (non-blocking)" name st e h
    · simpa using public_state_of_error windowsPlatform (bgEnv env) ⟨false, false⟩
        "shared lock (non-blocking)" name st e h
  · intro p hp env name st e
    have hpre : p.preUnlocks = false := by
      rcases hp with h1 | h1 <;> subst h1 <;> rfl
    refine ⟨fun h => ?_, fun h => ?_, fun h => ?_, fun h => ?_⟩
    · have := public_state_of_error p env ⟨true, true⟩ "exclusive lock" name st e h
      simpa [hpre] using this
    · have := public_state_of_error p env ⟨false, true⟩ "shared lock" name st e h
      simpa [hpre] using this
    · have := public_state_of_error p (bgEnv env) ⟨true, false⟩
        "exclusive lock (non-blocking)" name st e h
      simpa [hpre] using this
    · have := public_state_of_error p (bgEnv env) ⟨false, false⟩
        "shared lock (non-blocking)" name st e h
      simpa [hpre] using this

/-- Witness for C8: a cancelled windows Lock ends unlocked with the unlock
first in its trace; a failed unix TryLock (would-block) keeps the previous
exclusive state. -/
theorem C8_witness :
    (Lock windowsPlatform cancelledLockEnv "f" .shared).trace.head? = some .rawUnlockCall ∧
    (Lock windowsPlatform cancelledLockEnv "f" .shared).state = .unlocked ∧
    (TryLock unixPlatform (stepsLockEnv [⟨.fail EWOULDBLOCK, false⟩]) "f" .shared).state =
      .shared := by
  refine ⟨(C8_windows_relaxation_others_preserve_state.1 cancelledLockEnv "f" .shared).1,
    ((C8_windows_relaxation_others_preserve_state.2.1 cancelledLockEnv "f" .shared
      (.pathError "exclusive lock" "f" .canceled)).1 rfl),
    ?_⟩
  have h := (C8_windows_relaxation_others_preserve_state.2.2 unixPlatform (Or.inl rfl)
    (stepsLockEnv [⟨.fail EWOULDBLOCK, false⟩]) "f" .shared
    (.pathError "exclusive lock (non-blocking)" "f"
      (.syscallError "flock" .wouldBlock))).2.2.1
  exact h rfl

/-- The raw unlock mapping of each platform never produces an error that is
or wraps the `errLockInterrupted` sentinel. -/
theorem rawUnlock_not_interrupted (p : Platform)
    (hp : p = unixPlatform ∨ p = darwinPlatform ∨ p = windowsPlatform)
    (r : RawOutcome) (e : Err) (h : p.rawUnlock r = some e) :
    mentionsInterrupted e = false := by
  rcases hp with h1 | h1 | h1 <;> subst h1 <;> cases r <;>
    simp only [unixPlatform, darwinPlatform, windowsPlatform,
      unlockUnixRaw, unlockWindowsRaw, Option.some.injEq] at h <;>
    first
    | exact absurd h (by simp)
    | (subst h; rfl)

/-- C9: a Lock or RLock whose token is already cancelled at entry returns
the token's error (inside the usual PathError) without ever invoking the
kernel lock syscall, and a Load or Store whose token is already cancelled
at entry returns the token's error without opening any file (its event
trace is empty). -/
theorem C9_cancelled_at_entry_no_kernel_no_open :
    (∀ (p : Platform) (env : LockEnv) (name : String) (st : LockState),
      env.ctxCanceledAtEntry = true →
      (Lock p env name st).result =
          some (some (.pathError "exclusive lock" name env.ctxErr)) ∧
      Ev.rawLockCall ∉ (Lock p env name st).trace ∧
      (RLock p env name st).result =
          some (some (.pathError "shared lock" name env.ctxErr)) ∧
      Ev.rawLockCall ∉ (RLock p env name st).trace) ∧
    (∀ (T : Type) (sd : StoreDesc T) (env : LoadEnv) (path : String) (v : T) (fs : FS),
      env.ctxCanceledAtEntry = true →
      (sd.Load env path v fs).err = some env.ctxErr ∧
      (sd.Load env path v fs).trace = []) ∧
    (∀ (T : Type) (sd : StoreDesc T) (env : StoreEnv) (path : String) (mode : Nat)
        (canary : Option Nat) (v : T) (fs : FS),
      env.ctxCanceledAtEntry = true →
      (sd.Store env path mode canary v fs).err = some env.ctxErr ∧
      (sd.Store env path mode canary v fs).trace = []) := by
  refine ⟨?_, ?_, ?_⟩
  · intro p env name st hc
    have hx := interruptibleLock_canceled p env ⟨true, true⟩ st hc
    have hs := interruptibleLock_canceled p env ⟨false, true⟩ st hc
    refine ⟨?_, ?_, ?_, ?_⟩
    · simp [Lock, hx, wrapPathError]
    · simp only [Lock, hx]
      split <;> simp
    · simp [RLock, hs, wrapPathError]
    · simp only [RLock, hs]
      split <;> simp
  · intro T sd env path v fs hc
    constructor <;> simp [StoreDesc.Load, hc]
  · intro T sd env path mode canary v fs hc
    constructor <;> simp [StoreDesc.Store, hc]

/-- Witness for C9 on windows with a cancelled token, and with cancelled
Load and Store environments over the Nat codec. -/
theorem C9_witness :
    (Lock windowsPlatform cancelledLockEnv "f" .shared).result =
        some (some (.pathError "exclusive lock" "f" .canceled)) ∧
    Ev.rawLockCall ∉ (Lock windowsPlatform cancelledLockEnv "f" .shared).trace ∧
    (natCodec.Load ⟨true, false, .canceled, none, none⟩ "p" 0 fsP).err = some .canceled ∧
    (natCodec.Load ⟨true, false, .canceled, none, none⟩ "p" 0 fsP).trace = [] ∧
    (natCodec.Store ⟨true, .canceled, none, none, none, none, none, none, none, none⟩
        "p" 0 none 5 fsP).err = some .canceled ∧
    (natCodec.Store ⟨true, .canceled, none, none, none, none, none, none, none, none⟩
        "p" 0 none 5 fsP).trace = [] := by
  obtain ⟨h1, h2, -, -⟩ :=
    C9_cancelled_at_entry_no_kernel_no_open.1 windowsPlatform cancelledLockEnv "f" .shared rfl
  obtain ⟨h3, h4⟩ := C9_cancelled_at_entry_no_kernel_no_open.2.1 Nat natCodec
    ⟨true, false, .canceled, none, none⟩ "p" 0 fsP rfl
  obtain ⟨h5, h6⟩ := C9_cancelled_at_entry_no_kernel_no_open.2.2 Nat natCodec
    ⟨true, .canceled, none, none, none, none, none, none, none, none⟩ "p" 0 none 5 fsP rfl
  exact ⟨h1, h2, h3, h4, h5, h6⟩

/-- C10: no public lock operation (Lock, RLock, TryLock, TryRLock, Unlock)
on any platform ever returns the internal `errLockInterrupted` sentinel or
an error wrapping it: the retry loop converts every occurrence into either
a retried raw lock call or the token's error. The token's own error is not
the sentinel (in Go it is `context.Canceled` or the token's cause). -/
theorem C10_errLockInterrupted_never_escapes (p : Platform) (env : LockEnv)
    (r : RawOutcome) (name : String) (st : LockState) (e : Err)
    (hp : p = unixPlatform ∨ p = darwinPlatform ∨ p = windowsPlatform)
    (hctx : mentionsInterrupted env.ctxErr = false) :
    ((Lock p env name st).result = some (some e) → mentionsInterrupted e = false) ∧
    ((RLock p env name st).result = some (some e) → mentionsInterrupted e = false) ∧
    ((TryLock p env name st).result = some (some e) → mentionsInterrupted e = false) ∧
    ((TryRLock p env name st).result = some (some e) → mentionsInterrupted e = false) ∧
    ((Unlock p r name st).result = some (some e) → mentionsInterrupted e = false) := by
  have hbg : mentionsInterrupted (bgEnv env).ctxErr = false := hctx
  refine ⟨fun h => ?_, fun h => ?_, fun h => ?_, fun h => ?_, fun h => ?_⟩
  · obtain ⟨e1, hinner, hwrap⟩ := publicResult_inv "exclusive lock" name _ e h
    rw [hwrap, mentionsInterrupted_pathError]
    exact interruptibleLock_result_not_interrupted p env ⟨true, true⟩ st e1 hp hctx hinner
  · obtain ⟨e1, hinner, hwrap⟩ := publicResult_inv "shared lock" name _ e h
    rw [hwrap, mentionsInterrupted_pathError]
    exact interruptibleLock_result_not_interrupted p env ⟨false, true⟩ st e1 hp hctx hinner
  · obtain ⟨e1, hinner, hwrap⟩ :=
      publicResult_inv "exclusive lock (non-blocking)" name _ e h
    rw [hwrap, mentionsInterrupted_pathError]
    exact interruptibleLock_result_not_interrupted p (bgEnv env) ⟨true, false⟩ st e1 hp hbg hinner
  · obtain ⟨e1, hinner, hwrap⟩ :=
      publicResult_inv "shared lock (non-blocking)" name _ e h
    rw [hwrap, mentionsInterrupted_pathError]
    exact interruptibleLock_result_not_interrupted p (bgEnv env) ⟨false, false⟩ st e1 hp hbg hinner
  · unfold Unlock at h
    cases hr : p.rawUnlock r with
    | none => simp [hr] at h
    | some e1 =>
      simp only [hr] at h
      simp at h
      subst h
      rw [mentionsInterrupted_pathError]
      exact rawUnlock_not_interrupted p hp r e1 hr

/-- Witness for C10 on unix with an environment whose blocking lock gets
interrupted and then cancelled. -/
theorem C10_witness :
    (Lock unixPlatform ⟨false, .canceled, [⟨.fail EINTR, true⟩], .ok, false, none, .ok⟩
        "f" .unlocked).result =
      some (some (.pathError "exclusive lock" "f" .canceled)) ∧
    mentionsInterrupted (.pathError "exclusive lock" "f" .canceled) = false := by
  refine ⟨rfl, ?_⟩
  exact (C10_errLockInterrupted_never_escapes unixPlatform
    ⟨false, .canceled, [⟨.fail EINTR, true⟩], .ok, false, none, .ok⟩ .ok "f" .unlocked
    (.pathError "exclusive lock" "f" .canceled) (Or.inl rfl) rfl).1 rfl

/-- The sidecar name is always distinct from the destination path. -/
theorem sidecar_ne (p : String) : p ++ ".lock" ≠ p := by
  intro h
  have h2 := congrArg String.length h
  simp [String.length_append] at h2
  exact absurd h2 (by decide)

/-- Finding by key commutes with a map that fixes keys. -/
theorem find?_map_keyfix (l : List (String × FileInfo))
    (f : String × FileInfo → String × FileInfo)
    (hf : ∀ kv, (f kv).1 = kv.1) (x : String) :
    (l.map f).find? (fun kv => kv.1 == x) = (l.find? (fun kv => kv.1 == x)).map f := by
  induction l with
  | nil => rfl
  | cons kv rest ih =>
    simp only [List.map_cons, List.find?]
    rw [hf kv]
    cases h : (kv.1 == x) <;> simp [h, ih]

theorem FS.lookup_create_self (fs : FS) (q : String) :
    ((fs.create q).2).lookup q = some (fs.create q).1 := by
  simp [FS.create, FS.lookup, List.find?]

theorem FS.lookup_create_ne (fs : FS) (q : String) (x : String) (h : x ≠ q) :
    ((fs.create q).2).lookup x = fs.lookup x := by
  have h2 : (q == x) = false := by
    simp only [beq_eq_false_iff_ne]
    exact fun hh => h hh.symm
  simp [FS.create, FS.lookup, List.find?, h2]

theorem FS.lookup_setContent_self (fs : FS) (q : String) (c : List Nat) :
    (fs.setContent q c).lookup q =
      (fs.lookup q).map fun fi => ⟨fi.ino, c⟩ := by
  rcases fs with ⟨files, ni⟩
  simp only [FS.setContent, FS.lookup]
  rw [find?_map_keyfix]
  · cases h : files.find? (fun kv => kv.1 == q) with
    | none => rfl
    | some kv =>
      have hk0 : (fun kv : String × FileInfo => kv.1 == q) kv = true := @List.find?_some _ (fun kv => kv.1 == q) kv _ h
      have hk : (kv.1 == q) = true := hk0
      simp [beq_iff_eq.mp hk]
  · intro kv
    by_cases hkv : (kv.1 == q) = true <;> simp [hkv]

theorem FS.lookup_setContent_ne (fs : FS) (q : String) (c : List Nat) (x : String)
    (h : x ≠ q) :
    (fs.setContent q c).lookup x = fs.lookup x := by
  rcases fs with ⟨files, ni⟩
  simp only [FS.setContent, FS.lookup]
  rw [find?_map_keyfix]
  · cases hf : files.find? (fun kv => kv.1 == x) with
    | none => rfl
    | some kv =>
      have hk0 : (fun kv : String × FileInfo => kv.1 == x) kv = true := @List.find?_some _ (fun kv => kv.1 == x) kv _ hf
      have hk : kv.1 = x := beq_iff_eq.mp hk0
      have hne : kv.1 ≠ q := by rw [hk]; exact h
      simp [hne]
  · intro kv
    by_cases hkv : (kv.1 == q) = true <;> simp [hkv]

theorem FS.lookup_rename_src (fs : FS) (src : String) (dst : String) (h : dst ≠ src) :
    (fs.rename src dst).lookup src = none := by
  unfold FS.rename
  cases hl : fs.lookup src with
  | none => exact hl
  | some fi =>
    simp only [FS.lookup]
    have hd : (dst == src) = false := by
      simp only [beq_eq_false_iff_ne]
      exact h
    rw [List.find?_cons_of_neg _ (by simp [hd])]
    rw [List.find?_eq_none.mpr]
    · rfl
    · intro kv hkv
      have hmem := List.mem_filter.mp hkv
      have hkey : (kv.1 != src && kv.1 != dst) = true := hmem.2
      rw [Bool.and_eq_true] at hkey
      have h3 : (kv.1 != src) = true := hkey.1
      simp only [bne_iff_ne] at h3
      simp [h3]

theorem FS.lookup_rename_dst (fs : FS) (src : String) (dst : String) (fi : FileInfo)
    (h : fs.lookup src = some fi) :
    (fs.rename src dst).lookup dst = some fi := by
  unfold FS.rename
  rw [h]
  simp [FS.lookup, List.find?]

/-- A successful `Store` leaves `path` holding exactly the encoder's output
for the stored value (under the inode the sidecar had). -/
theorem store_success_content {T : Type} (sd : StoreDesc T) (env : StoreEnv)
    (path : String) (mode : Nat) (canary : Option Nat) (v : T) (fs : FS)
    (hs : (sd.Store env path mode canary v fs).err = none) :
    ∃ i, (sd.Store env path mode canary v fs).fs.lookup path =
      some ⟨i, sd.newEncoder v⟩ := by
  rcases hE : sd.Store env path mode canary v fs with ⟨err, fsq, tr⟩
  rw [hE] at hs
  simp at hs
  subst hs
  show ∃ i, fsq.lookup path = some { ino := i, content := sd.newEncoder v }
  unfold StoreDesc.Store at hE
  repeat' split at hE
  all_goals simp only [StoreOut.mk.injEq] at hE
  all_goals try (exfalso; revert hE; simp; done)
  obtain ⟨-, h2, -⟩ := hE
  subst h2
  rename_i hctx hx6 hopen hx5 hlock hx4 hstat hcan hx3 hdel hdeleted hx2 htrunc hx1 henc hx0 hren
  cases hls : (env.interference.getD (openWronlyCreate fs (path ++ ".lock")).2).lookup
      (path ++ ".lock") with
  | none => simp [deleted, hls] at hdeleted
  | some fi =>
    refine ⟨fi.ino, ?_⟩
    have h3 : ((env.interference.getD (openWronlyCreate fs (path ++ ".lock")).2).setContent
        (path ++ ".lock") []).lookup (path ++ ".lock") = some ⟨fi.ino, []⟩ := by
      rw [FS.lookup_setContent_self, hls]
      rfl
    have h4 : (((env.interference.getD (openWronlyCreate fs (path ++ ".lock")).2).setContent
        (path ++ ".lock") []).setContent (path ++ ".lock")
          (sd.newEncoder v)).lookup (path ++ ".lock") =
        some ⟨fi.ino, sd.newEncoder v⟩ := by
      rw [FS.lookup_setContent_self, h3]
      rfl
    exact FS.lookup_rename_dst _ _ _ _ h4

/-- C1: for every value and every injected encoder/decoder pair that are
mutual inverses, if Store returns success then a Load run on the resulting
file system (no intervening writer) with a live token succeeds and yields
the stored value. -/
theorem C1_store_load_roundtrip {T : Type} (sd : StoreDesc T)
    (hround : ∀ x w, sd.newDecoder (sd.newEncoder x) w = (none, x))
    (senv : StoreEnv) (lenv : LoadEnv) (path : String) (mode : Nat)
    (canary : Option Nat) (v : T) (w : T) (fs : FS)
    (hs : (sd.Store senv path mode canary v fs).err = none)
    (l1 : lenv.ctxCanceledAtEntry = false) (l2 : lenv.rlockErr = none)
    (l3 : lenv.ctxCanceledAfterLock = false) (l4 : lenv.fstatErr = none) :
    (sd.Load lenv path w (sd.Store senv path mode canary v fs).fs).err = none ∧
    (sd.Load lenv path w (sd.Store senv path mode canary v fs).fs).val = v := by
  obtain ⟨i, hlook⟩ := store_success_content sd senv path mode canary v fs hs
  constructor <;> simp [StoreDesc.Load, l1, l2, l3, l4, hlook, hround]

/-- Witness for C1: storing 5 into an empty file system and loading it
back returns 5. -/
theorem C1_witness :
    (natCodec.Store benignStoreEnv "p" 0 none 5 fsEmpty).err = none ∧
    (natCodec.Load benignLoadEnv "p" 0
        (natCodec.Store benignStoreEnv "p" 0 none 5 fsEmpty).fs).err = none ∧
    (natCodec.Load benignLoadEnv "p" 0
        (natCodec.Store benignStoreEnv "p" 0 none 5 fsEmpty).fs).val = 5 := by
  have h := C1_store_load_roundtrip natCodec (fun x w => rfl) benignStoreEnv benignLoadEnv
    "p" 0 none 5 0 fsEmpty rfl rfl rfl rfl rfl
  exact ⟨rfl, h.1, h.2⟩

theorem openWronlyCreate_lookup (fs : FS) (name : String) :
    ((openWronlyCreate fs name).2).lookup name = some (openWronlyCreate fs name).1 := by
  unfold openWronlyCreate
  cases h : fs.lookup name with
  | some fi => simp [h]
  | none => simpa using FS.lookup_create_self fs name

theorem openWronlyCreate_lookup_ne (fs : FS) (name : String) (x : String) (h : x ≠ name) :
    ((openWronlyCreate fs name).2).lookup x = fs.lookup x := by
  unfold openWronlyCreate
  cases hl : fs.lookup name with
  | some fi => rfl
  | none => exact FS.lookup_create_ne fs name x h

/-- A benign Store run (no injected failures, no concurrent writer)
reaches the canary check and its result is decided there: ErrRetry exactly
on an inode mismatch, success otherwise. -/
theorem store_reaches_canary {T : Type} (sd : StoreDesc T) (env : StoreEnv)
    (path : String) (mode : Nat) (canary : Option Nat) (v : T) (fs : FS)
    (h0 : path ≠ "")
    (h1 : env.ctxCanceledAtEntry = false) (h2 : env.openErr = none)
    (h3 : env.lockErr = none) (h4 : env.interference = none)
    (h5 : env.statPathErr = none) (h6 : env.deletedErr = none)
    (h7 : env.truncateErr = none) (h8 : env.encodeErr = none)
    (h9 : env.renameErr = none) :
    (sd.Store env path mode canary v fs).err =
      (if currentIno fs path ≠ canary.getD 0 then some .retry else none) := by
  have hpl : ((openWronlyCreate fs (path ++ ".lock")).2).lookup path = fs.lookup path :=
    openWronlyCreate_lookup_ne fs (path ++ ".lock") path (Ne.symm (sidecar_ne path))
  have hwl := openWronlyCreate_lookup fs (path ++ ".lock")
  cases hfp : fs.lookup path with
  | none =>
    simp [StoreDesc.Store, h1, h2, h3, h4, h5, h6, h7, h8, h9, storeStat, lstatIno,
      h0, hpl, hfp, hwl, deleted, statFatal, isNotExist, currentIno, apply_ite]
  | some fi =>
    simp [StoreDesc.Store, h1, h2, h3, h4, h5, h6, h7, h8, h9, storeStat, lstatIno,
      h0, hpl, hfp, hwl, deleted, statFatal, isNotExist, currentIno, apply_ite]

/-- Counterexample to C2 as stated: the caller supplies an empty (nil)
canary, the destination exists (inode 1), and Store nevertheless returns
ErrRetry from its canary check — the comparison is not skipped for empty
canaries, because `canary.(uint64)` reads nil as 0 and the current inode
is nonzero. -/
theorem C2_counterexample :
    (natCodec.Store benignStoreEnv "p" 0 none 5 fsP).err = some .retry := by rfl

/-- C2 (amended): a benign Store run returns ErrRetry from its canary
check exactly when the current inode of the destination (0 when missing)
differs from the supplied canary read as a uint64 (0 when nil); in
particular an empty canary with an existing destination does yield Retry,
and an empty canary with a missing destination does not. -/
theorem C2_canary_check_amended {T : Type} (sd : StoreDesc T) (env : StoreEnv)
    (path : String) (mode : Nat) (canary : Option Nat) (v : T) (fs : FS)
    (h0 : path ≠ "")
    (h1 : env.ctxCanceledAtEntry = false) (h2 : env.openErr = none)
    (h3 : env.lockErr = none) (h4 : env.interference = none)
    (h5 : env.statPathErr = none) (h6 : env.deletedErr = none)
    (h7 : env.truncateErr = none) (h8 : env.encodeErr = none)
    (h9 : env.renameErr = none) :
    ((sd.Store env path mode canary v fs).err = some .retry ↔
      currentIno fs path ≠ canary.getD 0) := by
  rw [store_reaches_canary sd env path mode canary v fs h0 h1 h2 h3 h4 h5 h6 h7 h8 h9]
  by_cases hc : currentIno fs path ≠ canary.getD 0 <;> simp [hc]

/-- Witness for C2 (amended): nil canary with existing destination gives
Retry; matching canary 1 does not; nil canary on a missing destination
does not. -/
theorem C2_witness :
    ((natCodec.Store benignStoreEnv "p" 0 none 5 fsP).err = some .retry ↔
      currentIno fsP "p" ≠ 0) ∧
    currentIno fsP "p" = 1 ∧
    ((natCodec.Store benignStoreEnv "p" 0 (some 1) 5 fsP).err = some .retry ↔
      currentIno fsP "p" ≠ 1) ∧
    (natCodec.Store benignStoreEnv "p" 0 (some 1) 5 fsP).err = none ∧
    (natCodec.Store benignStoreEnv "p" 0 none 5 fsEmpty).err = none := by
  refine ⟨?_, rfl, ?_, rfl, rfl⟩
  · exact C2_canary_check_amended natCodec benignStoreEnv "p" 0 none 5 fsP
      (by decide) rfl rfl rfl rfl rfl rfl rfl rfl rfl
  · exact C2_canary_check_amended natCodec benignStoreEnv "p" 0 (some 1) 5 fsP
      (by decide) rfl rfl rfl rfl rfl rfl rfl rfl rfl

/-- A successful `Store` consumes the sidecar name: the rename moved it
onto the destination. -/
theorem store_success_consumes {T : Type} (sd : StoreDesc T) (env : StoreEnv)
    (path : String) (mode : Nat) (canary : Option Nat) (v : T) (fs : FS)
    (hs : (sd.Store env path mode canary v fs).err = none) :
    (sd.Store env path mode canary v fs).fs.lookup (path ++ ".lock") = none := by
  rcases hE : sd.Store env path mode canary v fs with ⟨err, fsq, tr⟩
  rw [hE] at hs
  simp at hs
  subst hs
  show fsq.lookup (path ++ ".lock") = none
  unfold StoreDesc.Store at hE
  repeat' split at hE
  all_goals simp only [StoreOut.mk.injEq] at hE
  all_goals try (exfalso; revert hE; simp; done)
  obtain ⟨-, h2, -⟩ := hE
  subst h2
  exact FS.lookup_rename_src _ _ _ (Ne.symm (sidecar_ne path))

/-- An erroring `Store` with no concurrent interference leaves the sidecar
file on disk: there is no removal on the error paths. -/
theorem store_error_keeps_sidecar {T : Type} (sd : StoreDesc T) (env : StoreEnv)
    (path : String) (mode : Nat) (canary : Option Nat) (v : T) (fs : FS) (e : Err)
    (h1 : env.ctxCanceledAtEntry = false) (h2 : env.openErr = none)
    (h4 : env.interference = none)
    (hs : (sd.Store env path mode canary v fs).err = some e) :
    (sd.Store env path mode canary v fs).fs.lookup (path ++ ".lock") ≠ none := by
  have hwl := openWronlyCreate_lookup fs (path ++ ".lock")
  rcases hE : sd.Store env path mode canary v fs with ⟨err, fsq, tr⟩
  rw [hE] at hs
  simp at hs
  subst hs
  show fsq.lookup (path ++ ".lock") ≠ none
  unfold StoreDesc.Store at hE
  simp only [h1, h2, h4, Option.getD_none, Bool.false_eq_true, if_false] at hE
  repeat' split at hE
  all_goals simp only [StoreOut.mk.injEq] at hE
  all_goals obtain ⟨he, hfs, -⟩ := hE
  all_goals first
    | (exfalso; revert he; simp; done)
    | (subst hfs; simp [FS.lookup_setContent_self, hwl])

/-- Counterexample to C5 as stated: a Store run that returns ErrRetry
(canary mismatch) leaves the sidecar "p.lock" on disk — nothing removes
the sidecar name on error exits in the current Store (there is no
deferred remove, only a deferred close). -/
theorem C5_counterexample :
    (natCodec.Store benignStoreEnv "p" 0 none 5 fsP).err = some .retry ∧
    (natCodec.Store benignStoreEnv "p" 0 none 5 fsP).fs.lookup "p.lock" =
      some ⟨2, []⟩ := ⟨rfl, rfl⟩

/-- C5 (amended): Store never removes the sidecar name (no remove event is
ever emitted); after a successful open the sidecar handle is closed on
every exit; only a successful rename consumes the sidecar name; and every
error exit (absent concurrent interference) leaves the sidecar file on
disk, reusable by the next writer. -/
theorem C5_sidecar_closed_not_removed {T : Type} (sd : StoreDesc T) (env : StoreEnv)
    (path : String) (mode : Nat) (canary : Option Nat) (v : T) (fs : FS) :
    (∀ q, Ev.removeCall q ∉ (sd.Store env path mode canary v fs).trace) ∧
    (env.ctxCanceledAtEntry = false → env.openErr = none →
      Ev.closeCall (path ++ ".lock") ∈ (sd.Store env path mode canary v fs).trace) ∧
    ((sd.Store env path mode canary v fs).err = none →
      (sd.Store env path mode canary v fs).fs.lookup (path ++ ".lock") = none) ∧
    (∀ e, (sd.Store env path mode canary v fs).err = some e →
      env.ctxCanceledAtEntry = false → env.openErr = none → env.interference = none →
      (sd.Store env path mode canary v fs).fs.lookup (path ++ ".lock") ≠ none) := by
  refine ⟨?_, ?_, ?_, ?_⟩
  · intro q
    unfold StoreDesc.Store
    repeat' split
    all_goals simp
  · intro h1 h2
    unfold StoreDesc.Store
    simp only [h1, h2, Bool.false_eq_true, if_false]
    repeat' split
    all_goals simp
  · exact store_success_consumes sd env path mode canary v fs
  · intro e hs h1 h2 h4
    exact store_error_keeps_sidecar sd env path mode canary v fs e h1 h2 h4 hs

/-- Witness for C5 (amended) on concrete runs: no remove event, the close
event present, a successful run consumes the sidecar, an ErrRetry run
leaves it. -/
theorem C5_witness :
    Ev.removeCall "p.lock" ∉ (natCodec.Store benignStoreEnv "p" 0 none 5 fsP).trace ∧
    Ev.closeCall ("p" ++ ".lock") ∈ (natCodec.Store benignStoreEnv "p" 0 none 5 fsP).trace ∧
    (natCodec.Store benignStoreEnv "p" 0 (some 1) 5 fsP).fs.lookup ("p" ++ ".lock") = none ∧
    (natCodec.Store benignStoreEnv "p" 0 none 5 fsP).fs.lookup ("p" ++ ".lock") ≠ none := by
  refine ⟨(C5_sidecar_closed_not_removed natCodec benignStoreEnv "p" 0 none 5 fsP).1 "p.lock",
    (C5_sidecar_closed_not_removed natCodec benignStoreEnv "p" 0 none 5 fsP).2.1 rfl rfl,
    (C5_sidecar_closed_not_removed natCodec benignStoreEnv "p" 0 (some 1) 5 fsP).2.2.1 rfl,
    (C5_sidecar_closed_not_removed natCodec benignStoreEnv "p" 0 none 5 fsP).2.2.2
      .retry rfl rfl rfl rfl⟩

/-- When the decoder was never invoked, `Load` leaves the pointee exactly
as it received it. -/
theorem load_val_of_no_decode {T : Type} (sd : StoreDesc T) (env : LoadEnv)
    (path : String) (v : T) (fs : FS)
    (h : Ev.decodeCall ∉ (sd.Load env path v fs).trace) :
    (sd.Load env path v fs).val = v := by
  rcases hE : sd.Load env path v fs with ⟨can, er, vl, tr⟩
  rw [hE] at h
  simp only at h
  show vl = v
  unfold StoreDesc.Load at hE
  repeat' split at hE
  all_goals simp only [LoadOut.mk.injEq] at hE
  all_goals obtain ⟨-, -, h3, h4⟩ := hE
  all_goals first
    | exact h3.symm
    | (exfalso; subst h4; simp at h)

/-- C3 (amended): on each `LoadAndStore` iteration the user callback is
invoked exactly once, receiving the loaded pointee and the load error; the
pointee is the zero value of T whenever the failure preceded decoding (in
particular when the file did not exist), while a decoder that mutates the
pointee before failing hands the callback the mutated value; and a non-nil
callback error is returned as is, with Store never attempted. -/
theorem C3_callback_always_called {T : Type} (sd : StoreDesc T) (zero : T)
    (env : IterEnv) (path : String) (mode : Nat)
    (fn : T → Option Err → Option Err × T) (fs : FS) :
    (sd.tryLoadAndStore zero env path mode fn fs).calls =
      [⟨(sd.Load env.loadEnv path zero fs).val, (sd.Load env.loadEnv path zero fs).err⟩] ∧
    (Ev.decodeCall ∉ (sd.Load env.loadEnv path zero fs).trace →
      (sd.Load env.loadEnv path zero fs).val = zero) ∧
    (∀ e v2,
      fn (sd.Load env.loadEnv path zero fs).val (sd.Load env.loadEnv path zero fs).err =
        (some e, v2) →
      (sd.tryLoadAndStore zero env path mode fn fs).err = some e ∧
      (sd.tryLoadAndStore zero env path mode fn fs).fs = fs ∧
      (sd.tryLoadAndStore zero env path mode fn fs).trace =
        (sd.Load env.loadEnv path zero fs).trace ++ [.callbackCall]) := by
  refine ⟨?_, ?_, ?_⟩
  · cases hfr : (fn (sd.Load env.loadEnv path zero fs).val
        (sd.Load env.loadEnv path zero fs).err).1 <;>
      simp [StoreDesc.tryLoadAndStore, hfr]
  · exact load_val_of_no_decode sd env.loadEnv path zero fs
  · intro e v2 hfn
    unfold StoreDesc.tryLoadAndStore
    simp [hfn]

/-- Counterexample to C3 as stated: an injected decoder (Go `Decode(v any)
error` may write through `v` before failing) mutates the pointee to 99 and
fails; the callback receives 99 with the load error, not the zero value
0. -/
theorem C3_counterexample :
    (mutatingCodec.tryLoadAndStore 0 benignIterEnv "p" 0
        (fun val _ => (none, val)) fsP).calls = [⟨99, some (.userErr 1)⟩] ∧
    (CallbackRecord.mk 99 (some (Err.userErr 1)) : CallbackRecord Nat).val ≠ 0 :=
  ⟨rfl, by decide⟩

/-- Witness for C3 (amended): loading a missing file hands the callback
the zero value with the load error, and the callback's error short-circuits
Store. -/
theorem C3_witness :
    (natCodec.tryLoadAndStore 0 benignIterEnv "q" 0
        (fun _ _ => (some (.userErr 7), 0)) fsEmpty).calls =
      [⟨(natCodec.Load benignLoadEnv "q" 0 fsEmpty).val,
        (natCodec.Load benignLoadEnv "q" 0 fsEmpty).err⟩] ∧
    (natCodec.Load benignLoadEnv "q" 0 fsEmpty).val = 0 ∧
    (natCodec.tryLoadAndStore 0 benignIterEnv "q" 0
        (fun _ _ => (some (.userErr 7), 0)) fsEmpty).err = some (.userErr 7) ∧
    (natCodec.tryLoadAndStore 0 benignIterEnv "q" 0
        (fun _ _ => (some (.userErr 7), 0)) fsEmpty).fs = fsEmpty ∧
    (natCodec.tryLoadAndStore 0 benignIterEnv "q" 0
        (fun _ _ => (some (.userErr 7), 0)) fsEmpty).trace =
      (natCodec.Load benignLoadEnv "q" 0 fsEmpty).trace ++ [.callbackCall] := by
  have h := C3_callback_always_called natCodec 0 benignIterEnv "q" 0
    (fun _ _ => (some (.userErr 7), 0)) fsEmpty
  have h2 := h.2.2 (.userErr 7) 0 rfl
  exact ⟨h.1, h.2.1 (by decide), h2.1, h2.2.1, h2.2.2⟩

/-- The retry loop of LoadAndStore only ever hands back an error that is
not ErrRetry. -/
theorem lasLoop_never_retry {T : Type} (sd : StoreDesc T) (zero : T) (path : String)
    (mode : Nat) (fn : T → Option Err → Option Err × T) :
    ∀ (envs : List IterEnv) (err0 : Option Err) (fs : FS) (r : Option Err) (fs2 : FS),
      lasLoop sd zero path mode fn err0 envs fs = (some r, fs2) → r ≠ some .retry := by
  intro envs
  induction envs with
  | nil =>
    intro err0 fs r fs2 h
    unfold lasLoop at h
    split at h
    · simp at h
    · next hne =>
      simp at h
      exact h.1 ▸ hne
  | cons a rest ih =>
    intro err0 fs r fs2 h
    unfold lasLoop at h
    split at h
    · exact ih _ _ r _ h
    · next hne =>
      simp at h
      exact h.1 ▸ hne

/-- C4: LoadAndStore never returns ErrRetry — the loop re-runs while an
iteration yields it — and whenever it returns, its result is the first
non-Retry iteration outcome: a retry iteration continues the loop on the
iteration's file system, a non-retry iteration's error (nil on success) is
returned immediately. -/
theorem C4_loadAndStore_never_retry {T : Type} (sd : StoreDesc T) (zero : T)
    (path : String) (mode : Nat) (fn : T → Option Err → Option Err × T) :
    (∀ (envs : List IterEnv) (fs : FS) (r : Option Err) (fs2 : FS),
      sd.LoadAndStore zero envs path mode fn fs = (some r, fs2) → r ≠ some .retry) ∧
    (∀ (e : IterEnv) (rest : List IterEnv) (fs : FS),
      (sd.tryLoadAndStore zero e path mode fn fs).err = some .retry →
      sd.LoadAndStore zero (e :: rest) path mode fn fs =
        sd.LoadAndStore zero rest path mode fn
          (sd.tryLoadAndStore zero e path mode fn fs).fs) ∧
    (∀ (e : IterEnv) (rest : List IterEnv) (fs : FS),
      (sd.tryLoadAndStore zero e path mode fn fs).err ≠ some .retry →
      sd.LoadAndStore zero (e :: rest) path mode fn fs =
        (some (sd.tryLoadAndStore zero e path mode fn fs).err,
          (sd.tryLoadAndStore zero e path mode fn fs).fs)) := by
  refine ⟨?_, ?_, ?_⟩
  · intro envs fs r fs2 h
    exact lasLoop_never_retry sd zero path mode fn envs (some .retry) fs r fs2 h
  · intro e rest fs h
    show lasLoop sd zero path mode fn (some .retry) (e :: rest) fs = _
    rw [lasLoop]
    simp [h]
    rfl
  · intro e rest fs h
    show lasLoop sd zero path mode fn (some .retry) (e :: rest) fs = _
    rw [lasLoop]
    simp only [if_pos rfl]
    cases rest with
    | nil =>
      rw [lasLoop]
      simp [h]
    | cons b brest =>
      rw [lasLoop]
      simp [h]

/-- Witness for C4: a first iteration whose Store hits a concurrent
writer's rename returns ErrRetry, the loop continues on the interfered
file system, and the overall result of the two-iteration run is `some
none` (success), not Retry. -/
theorem C4_witness :
    (natCodec.tryLoadAndStore 0 retryIterEnv "p" 0 (fun v _ => (none, v)) fsP).err =
      some .retry ∧
    natCodec.LoadAndStore 0 [retryIterEnv, benignIterEnv] "p" 0
        (fun v _ => (none, v)) fsP =
      natCodec.LoadAndStore 0 [benignIterEnv] "p" 0 (fun v _ => (none, v))
        (natCodec.tryLoadAndStore 0 retryIterEnv "p" 0 (fun v _ => (none, v)) fsP).fs ∧
    (none : Option Err) ≠ some .retry := by
  refine ⟨rfl, ?_, ?_⟩
  · exact (C4_loadAndStore_never_retry natCodec 0 "p" 0 (fun v _ => (none, v))).2.1
      retryIterEnv [benignIterEnv] fsP rfl
  · exact (C4_loadAndStore_never_retry natCodec 0 "p" 0 (fun v _ => (none, v))).1
      [retryIterEnv, benignIterEnv] fsP none
      (natCodec.LoadAndStore 0 [retryIterEnv, benignIterEnv] "p" 0
        (fun v _ => (none, v)) fsP).2 rfl

end store
